import Mathlib

/-!
Shallow embedding of the node-graph ("mind map" / "life system") editor of
this repository, together with theorems settling the frozen claims about it.

The main implementation lives in the React component `LifeSystemMap`
(source file `part_004`): alignment snapping (`getHelperLines`,
`customOnNodesChange`), document mutation (`handleAddNode`,
`handleDeleteNode`, ...) and the snapshot undo/redo history
(`saveToHistory`, `handleUndo`, `handleRedo`).  The simpler variant
`MindMapBoard.tsx` contributes the connection operation
(`handleMouseUpNode`) and is embedded in the `Board` namespace.

JavaScript numbers are modelled by `ℚ` (every arithmetic operation the
embedded code performs - addition, subtraction, halving, absolute value -
is exact on the magnitudes involved), JS arrays by `List`, JS objects used
as string-keyed records by association lists, and `null`/`undefined` by
`Option`.
-/

namespace MindMap

/-- A 2-d point, as in the source's `{ x, y }` position records. -/
structure Pos where
  x : ℚ
  y : ℚ
  deriving DecidableEq, Repr

/-- Width/height pair, as returned by `getNodeDimensions`. -/
structure Dim where
  width : ℚ
  height : ℚ
  deriving DecidableEq, Repr

/-- A React-Flow node as used by `LifeSystemMap`: `id`, `position`, and the
`data` payload fields the editor reads (`label`, `icon`, `nodeType`,
`categoryColor`), plus the optional `measured` render size. -/
structure Node where
  id : String
  position : Pos
  label : String := ""
  icon : Option String := none
  nodeType : String := "leaf"
  categoryColor : Option String := none
  measured : Option Dim := none
  deriving DecidableEq, Repr

/-- A React-Flow edge: `id`, `source`, `target` (styling omitted). -/
structure Edge where
  id : String
  source : String
  target : String
  deriving DecidableEq, Repr

/-- JS `Math.abs`, written with an explicit comparison so that concrete
instances evaluate inside the kernel. -/
def absq (q : ℚ) : ℚ := if q < 0 then -q else q

/-- Source: `const SNAP_THRESHOLD = 8;` (snap threshold in pixels). -/
def SNAP_THRESHOLD : ℚ := 8

/-- Source: `getNodeDimensions` - measured dimensions if available (JS
truthiness: a `0` width or height is falsy and falls through), else a
fallback size by `nodeType`. -/
def getNodeDimensions (node : Node) : Dim :=
  match node.measured with
  | some d =>
    if d.width ≠ 0 ∧ d.height ≠ 0 then ⟨d.width, d.height⟩
    else fallback node.nodeType
  | none => fallback node.nodeType
where
  /-- The `switch (nodeType)` fallback table. -/
  fallback : String → Dim
    | "root" => ⟨180, 60⟩
    | "category" => ⟨120, 48⟩
    | _ => ⟨100, 40⟩

/-- Source: `interface HelperLinesResult` - the result of
`getHelperLines`.  `alignType` models the source's union of the five
alignment labels (center, top, bottom, left, right) and `null`. -/
structure HelperLinesResult where
  horizontal : Option ℚ
  vertical : Option ℚ
  snapX : Option ℚ
  snapY : Option ℚ
  alignType : Option String
  deriving DecidableEq, Repr

/-- The mutable loop state of `getHelperLines`: the six `let` variables
declared before the `for` loop. -/
structure HLAcc where
  closestHorizontal : Option ℚ
  closestVertical : Option ℚ
  snapX : Option ℚ
  snapY : Option ℚ
  alignType : Option String
  minHorizontalDistance : ℚ
  minVerticalDistance : ℚ
  deriving DecidableEq, Repr

/-- One iteration of the `for (const node of nodes)` loop body of
`getHelperLines`: skip the dragged node, then run the six sequential
`if (dist < min...)` updates (center/top/bottom for the horizontal line,
then center/left/right for the vertical line). -/
def hlStep (draggingNode : Node) (acc : HLAcc) (node : Node) : HLAcc :=
  if node.id = draggingNode.id then acc
  else
    let draggingDim := getNodeDimensions draggingNode
    let draggingNodeCenterX := draggingNode.position.x + draggingDim.width / 2
    let draggingNodeCenterY := draggingNode.position.y + draggingDim.height / 2
    let draggingNodeLeft := draggingNode.position.x
    let draggingNodeRight := draggingNode.position.x + draggingDim.width
    let draggingNodeTop := draggingNode.position.y
    let draggingNodeBottom := draggingNode.position.y + draggingDim.height
    let nodeDim := getNodeDimensions node
    let nodeCenterX := node.position.x + nodeDim.width / 2
    let nodeCenterY := node.position.y + nodeDim.height / 2
    let nodeLeft := node.position.x
    let nodeRight := node.position.x + nodeDim.width
    let nodeTop := node.position.y
    let nodeBottom := node.position.y + nodeDim.height
    -- Center to center (Y axis)
    let centerYDist := absq (draggingNodeCenterY - nodeCenterY)
    let acc :=
      if centerYDist < acc.minHorizontalDistance then
        { acc with minHorizontalDistance := centerYDist,
                   closestHorizontal := some nodeCenterY,
                   snapY := some (nodeCenterY - draggingDim.height / 2) }
      else acc
    -- Top to top
    let topDist := absq (draggingNodeTop - nodeTop)
    let acc :=
      if topDist < acc.minHorizontalDistance then
        { acc with minHorizontalDistance := topDist,
                   closestHorizontal := some nodeTop,
                   snapY := some nodeTop }
      else acc
    -- Bottom to bottom
    let bottomDist := absq (draggingNodeBottom - nodeBottom)
    let acc :=
      if bottomDist < acc.minHorizontalDistance then
        { acc with minHorizontalDistance := bottomDist,
                   closestHorizontal := some nodeBottom,
                   snapY := some (nodeBottom - draggingDim.height) }
      else acc
    -- Center to center (X axis)
    let centerXDist := absq (draggingNodeCenterX - nodeCenterX)
    let acc :=
      if centerXDist < acc.minVerticalDistance then
        { acc with minVerticalDistance := centerXDist,
                   closestVertical := some nodeCenterX,
                   snapX := some (nodeCenterX - draggingDim.width / 2) }
      else acc
    -- Left to left
    let leftDist := absq (draggingNodeLeft - nodeLeft)
    let acc :=
      if leftDist < acc.minVerticalDistance then
        { acc with minVerticalDistance := leftDist,
                   closestVertical := some nodeLeft,
                   snapX := some nodeLeft }
      else acc
    -- Right to right
    let rightDist := absq (draggingNodeRight - nodeRight)
    let acc :=
      if rightDist < acc.minVerticalDistance then
        { acc with minVerticalDistance := rightDist,
                   closestVertical := some nodeRight,
                   snapX := some (nodeRight - draggingDim.width) }
      else acc
    acc

/-- Source: `getHelperLines(draggingNode, nodes)` - fold the loop body over
the node list starting from `null` lines and both minimum distances at
`SNAP_THRESHOLD`, and return the final variables. -/
def getHelperLines (draggingNode : Node) (nodes : List Node) :
    HelperLinesResult :=
  let acc := nodes.foldl (hlStep draggingNode)
    ⟨none, none, none, none, none, SNAP_THRESHOLD, SNAP_THRESHOLD⟩
  ⟨acc.closestHorizontal, acc.closestVertical, acc.snapX, acc.snapY,
   acc.alignType⟩


/-- A React-Flow `NodeChange`, restricted to the shapes the handler
inspects: a `position` change carries the node id, an optional new
position and the `dragging` flag; every other change kind is opaque. -/
inductive NodeChange where
  | position (id : String) (position : Option Pos) (dragging : Bool)
  | other
  deriving DecidableEq, Repr

/-- The predicate of the source's
`changes.find((change) => change.type === 'position' && change.dragging)`. -/
def isDraggingChange : NodeChange → Bool
  | .position _ _ dragging => dragging
  | .other => false

/-- Source: `customOnNodesChange` - look for a dragging position change;
if found (and it carries a position and names a known node), compute the
helper lines for the node moved to that position and, when a snap position
exists on either axis, substitute it into the change before handing the
batch on to `onNodesChange`.  The returned list is the batch that reaches
`onNodesChange`. -/
def customOnNodesChange (changes : List NodeChange) (nodes : List Node) :
    List NodeChange :=
  match changes.find? isDraggingChange with
  | some (.position cid (some cpos) _) =>
    match nodes.find? (fun n => n.id == cid) with
    | some draggingNode =>
      let tempNode := { draggingNode with position := cpos }
      let r := getHelperLines tempNode nodes
      if r.snapX.isSome ∨ r.snapY.isSome then
        changes.map fun c =>
          match c with
          | .position id (some p) dragging =>
            if id = cid then
              NodeChange.position id (some ⟨r.snapX.getD p.x, r.snapY.getD p.y⟩)
                dragging
            else c
          | c => c
      else changes
    | none => changes
  | _ => changes

/-- Modelled from the spec: the `onNodesChange` updater returned by
`useNodesState` (the external React-Flow library, not part of this
repository) applies each position change of the batch to the matching
node. -/
def applyNodeChanges (changes : List NodeChange) (nodes : List Node) :
    List Node :=
  changes.foldl
    (fun ns c =>
      match c with
      | .position id (some p) _ =>
        ns.map (fun n => if n.id == id then { n with position := p } else n)
      | _ => ns)
    nodes

/-- JS `String.prototype.trim`, modelled over the character list so that
concrete instances evaluate inside the kernel (the built-in `String.trim`
is byte-position recursion the kernel cannot unfold). -/
def jsTrim (s : String) : String :=
  ⟨((s.data.dropWhile Char.isWhitespace).reverse.dropWhile
      Char.isWhitespace).reverse⟩

/-- The graph document: the `nodes`/`edges` state pair of the component
(also the persisted `LifeSystemData` shape). -/
structure Doc where
  nodes : List Node
  edges : List Edge
  deriving DecidableEq, Repr

/-- Source: `handleDeleteNode` - no-op for the root node (the guard
`!selectedNode || selectedNode.id === 'root'`; the id here is the selected
node's id); otherwise remove the node and every edge whose source or
target is that id. -/
def handleDeleteNode (d : Doc) (id : String) : Doc :=
  if id = "root" then d
  else
    { nodes := d.nodes.filter (fun n => n.id ≠ id),
      edges := d.edges.filter (fun e => e.source ≠ id ∧ e.target ≠ id) }

/-- Source: `handleAddNode` - guard on the trimmed label; the new node has
id `node_` followed by `Date.now()` (the current time in milliseconds,
passed here as `now`), a position next to the selected node or the default
(400, 300), and `nodeType: 'leaf'`; when a node is selected an edge from it
to the new node is appended as well. -/
def handleAddNode (d : Doc) (selectedNode : Option Node)
    (newNodeLabel : String) (now : Nat) : Doc :=
  if jsTrim newNodeLabel = "" then d
  else
    let newNode : Node :=
      { id := "node_" ++ toString now,
        position :=
          match selectedNode with
          | some sn => ⟨sn.position.x + 200, sn.position.y⟩
          | none => ⟨400, 300⟩,
        label := newNodeLabel,
        nodeType := "leaf" }
    let d1 : Doc := { d with nodes := d.nodes ++ [newNode] }
    match selectedNode with
    | some sn =>
      { d1 with
        edges := d1.edges ++
          [⟨"e-" ++ sn.id ++ "-" ++ newNode.id, sn.id, newNode.id⟩] }
    | none => d1

/-- Source: `interface HistoryState` - an immutable nodes/edges snapshot. -/
structure HistoryState where
  nodes : List Node
  edges : List Edge
  deriving DecidableEq, Repr

/-- The component state the history logic touches: the current document,
the selection, the `history` array, the cursor `historyIndex` (a JS number
initialised to `-1`, hence `Int`), and the `isUndoRedo` ref. -/
structure EditorState where
  nodes : List Node
  edges : List Edge
  selectedNode : Option Node
  selectedEdge : Option Edge
  history : List HistoryState
  historyIndex : Int
  isUndoRedo : Bool
  deriving DecidableEq, Repr

/-- JS `Array.prototype.slice(-50)`: keep the last 50 elements. -/
def sliceLast50 (l : List HistoryState) : List HistoryState :=
  l.drop (l.length - 50)

/-- Source: `saveToHistory` - skip (and clear) when the `isUndoRedo` flag
is set; otherwise truncate the history above the cursor
(`prev.slice(0, historyIndex + 1)`), append the current snapshot, keep the
last 50 entries, and advance the cursor capped at 49
(`Math.min(prev + 1, 49)`). -/
def saveToHistory (s : EditorState) : EditorState :=
  if s.isUndoRedo then { s with isUndoRedo := false }
  else
    let newState : HistoryState := ⟨s.nodes, s.edges⟩
    let newHistory := s.history.take (s.historyIndex + 1).toNat
    { s with
      history := sliceLast50 (newHistory ++ [newState]),
      historyIndex := min (s.historyIndex + 1) 49 }

/-- Source: `handleUndo` - no-op when `historyIndex <= 0`; otherwise set
the `isUndoRedo` flag, restore the snapshot below the cursor, decrement
the cursor and clear the selection. -/
def handleUndo (s : EditorState) : EditorState :=
  if s.historyIndex ≤ 0 then s
  else
    let prevState := s.history.getD (s.historyIndex - 1).toNat ⟨[], []⟩
    { s with
      isUndoRedo := true,
      nodes := prevState.nodes,
      edges := prevState.edges,
      historyIndex := s.historyIndex - 1,
      selectedNode := none,
      selectedEdge := none }

/-- Source: `handleRedo` - no-op when `historyIndex >= history.length - 1`;
otherwise set the flag, restore the snapshot above the cursor, increment
the cursor and clear the selection. -/
def handleRedo (s : EditorState) : EditorState :=
  if s.historyIndex ≥ (s.history.length : Int) - 1 then s
  else
    let nextState := s.history.getD (s.historyIndex + 1).toNat ⟨[], []⟩
    { s with
      isUndoRedo := true,
      nodes := nextState.nodes,
      edges := nextState.edges,
      historyIndex := s.historyIndex + 1,
      selectedNode := none,
      selectedEdge := none }

/-- Iterate `n` successive checkpoints (`saveToHistory` calls). -/
def pushN : Nat → EditorState → EditorState
  | 0, s => s
  | n + 1, s => saveToHistory (pushN n s)

/-- Iterate `n` successive `handleUndo` calls. -/
def undoN : Nat → EditorState → EditorState
  | 0, s => s
  | n + 1, s => handleUndo (undoN n s)

/-- Modelled from the spec: `connect(sourceId, targetId)` - the
component's `onConnect` delegates to the `addEdge` helper of the external
`@xyflow/react` package, which is not part of this repository; per the
spec it is a no-op if `sourceId == targetId`, if either id is unknown, or
if the edge already exists, and otherwise records the new edge. -/
def connectEdges (nodes : List Node) (edges : List Edge)
    (sourceId targetId : String) : List Edge :=
  if sourceId = targetId ∨
      (nodes.find? (fun n => n.id == sourceId)).isNone ∨
      (nodes.find? (fun n => n.id == targetId)).isNone ∨
      edges.any (fun e => e.source == sourceId && e.target == targetId)
  then edges
  else
    edges ++ [⟨"xy-edge__" ++ sourceId ++ "-" ++ targetId, sourceId, targetId⟩]

/-- The discrete dispatched actions of the editor, each carrying the
payload its source handler reads; drag events travel through
`customOnNodesChange` exactly like React-Flow position changes. -/
inductive EditorEvent where
  | addNode (newNodeLabel : String) (now : Nat)
  | deleteNode
  | deleteEdge
  | connect (sourceId targetId : String)
  | dragMove (id : String) (pos : Pos)
  | dragEnd (id : String) (pos : Option Pos)
  | relabel (editLabel : String)
  | recolor (color : String)
  | selectNode (n : Node)
  | selectEdge (e : Edge)
  | undo
  | redo
  deriving Repr

/-- The state update performed by each handler of the source component
(`handleAddNode`, `handleDeleteNode`, `handleDeleteEdge`, `onConnect`,
`customOnNodesChange`/`onNodesChange` for drags, `handleEditNode`,
`handleChangeColor`, `onNodeClick`, `onEdgeClick`, `handleUndo`,
`handleRedo`). -/
def applyEvent (s : EditorState) : EditorEvent → EditorState
  | .addNode label now =>
    let d := handleAddNode ⟨s.nodes, s.edges⟩ s.selectedNode label now
    { s with nodes := d.nodes, edges := d.edges }
  | .deleteNode =>
    match s.selectedNode with
    | none => s
    | some sel =>
      if sel.id = "root" then s
      else
        let d := handleDeleteNode ⟨s.nodes, s.edges⟩ sel.id
        { s with nodes := d.nodes, edges := d.edges, selectedNode := none }
  | .deleteEdge =>
    match s.selectedEdge with
    | none => s
    | some sel =>
      { s with
        edges := s.edges.filter (fun e => e.id ≠ sel.id),
        selectedEdge := none }
  | .connect src tgt => { s with edges := connectEdges s.nodes s.edges src tgt }
  | .dragMove id pos =>
    let out := customOnNodesChange [.position id (some pos) true] s.nodes
    { s with nodes := applyNodeChanges out s.nodes }
  | .dragEnd id pos =>
    let out := customOnNodesChange [.position id pos false] s.nodes
    { s with nodes := applyNodeChanges out s.nodes }
  | .relabel label =>
    match s.selectedNode with
    | none => s
    | some sel =>
      if jsTrim label = "" then s
      else
        { s with
          nodes := s.nodes.map
            (fun n => if n.id == sel.id then { n with label := label } else n) }
  | .recolor color =>
    match s.selectedNode with
    | none => s
    | some sel =>
      { s with
        nodes := s.nodes.map
          (fun n =>
            if n.id == sel.id then { n with categoryColor := some color }
            else n) }
  | .selectNode n => { s with selectedNode := some n, selectedEdge := none }
  | .selectEdge e => { s with selectedEdge := some e, selectedNode := none }
  | .undo => handleUndo s
  | .redo => handleRedo s

/-- One dispatched action followed by the component's
`useEffect(() => saveToHistory(), [nodes.length, edges.length])`: the
checkpoint effect runs exactly when the node count or the edge count
changed across the update. -/
def step (s : EditorState) (ev : EditorEvent) : EditorState :=
  if (applyEvent s ev).nodes.length = s.nodes.length ∧
      (applyEvent s ev).edges.length = s.edges.length then applyEvent s ev
  else saveToHistory (applyEvent s ev)

/-- Source: `categoryColors`. -/
structure CategoryColors where
  health : String
  work : String
  growth : String
  life : String

/-- Source: `const categoryColors = { health: ..., work: ..., growth: ...,
life: ... }`. -/
def categoryColors : CategoryColors :=
  ⟨"#34d399", "#60a5fa", "#fbbf24", "#f472b6"⟩

/-- Source: `DEFAULT_NODES` (ids, positions and data payloads; the React
`type: 'custom'` rendering field is not part of the document model). -/
def DEFAULT_NODES : List Node := [
  { id := "root", position := ⟨400, 300⟩, label := "我的生活系统",
    icon := some "🧠", nodeType := "root" },
  { id := "health", position := ⟨750, 80⟩, label := "健康",
    icon := some "💪", nodeType := "category",
    categoryColor := some categoryColors.health },
  { id := "health_sleep", position := ⟨950, 50⟩, label := "睡眠",
    icon := some "😴", nodeType := "leaf",
    categoryColor := some categoryColors.health },
  { id := "health_nutrition", position := ⟨950, 110⟩, label := "食物摄入",
    icon := some "🍽️", nodeType := "leaf",
    categoryColor := some categoryColors.health },
  { id := "learning", position := ⟨750, 280⟩, label := "学习",
    icon := some "📚", nodeType := "category",
    categoryColor := some categoryColors.growth },
  { id := "learning_research", position := ⟨950, 250⟩, label := "Research",
    icon := some "🔬", nodeType := "leaf",
    categoryColor := some categoryColors.growth },
  { id := "learning_reading", position := ⟨950, 310⟩, label := "阅读",
    icon := some "📖", nodeType := "leaf",
    categoryColor := some categoryColors.growth },
  { id := "work", position := ⟨50, 80⟩, label := "工作",
    icon := some "💼", nodeType := "category",
    categoryColor := some categoryColors.work },
  { id := "work_projects", position := ⟨-150, 50⟩, label := "项目",
    icon := some "📁", nodeType := "leaf",
    categoryColor := some categoryColors.work },
  { id := "work_meetings", position := ⟨-150, 110⟩, label := "会议",
    icon := some "🗓️", nodeType := "leaf",
    categoryColor := some categoryColors.work },
  { id := "exercise", position := ⟨50, 520⟩, label := "运动",
    icon := some "🏃", nodeType := "category",
    categoryColor := some categoryColors.life },
  { id := "exercise_climbing", position := ⟨-150, 490⟩, label := "攀岩",
    icon := some "🧗", nodeType := "leaf",
    categoryColor := some categoryColors.life },
  { id := "exercise_gym", position := ⟨-150, 550⟩, label := "健身",
    icon := some "🏋️", nodeType := "leaf",
    categoryColor := some categoryColors.life }]

/-- Source: `DEFAULT_EDGES` (ids, sources and targets; styling omitted). -/
def DEFAULT_EDGES : List Edge := [
  ⟨"e-root-health", "root", "health"⟩,
  ⟨"e-root-learning", "root", "learning"⟩,
  ⟨"e-root-work", "root", "work"⟩,
  ⟨"e-root-exercise", "root", "exercise"⟩,
  ⟨"e-health-sleep", "health", "health_sleep"⟩,
  ⟨"e-health-nutrition", "health", "health_nutrition"⟩,
  ⟨"e-learning-research", "learning", "learning_research"⟩,
  ⟨"e-learning-reading", "learning", "learning_reading"⟩,
  ⟨"e-work-projects", "work", "work_projects"⟩,
  ⟨"e-work-meetings", "work", "work_meetings"⟩,
  ⟨"e-exercise-climbing", "exercise", "exercise_climbing"⟩,
  ⟨"e-exercise-gym", "exercise", "exercise_gym"⟩]

/-- The document the editor opens on when no saved data exists. -/
def defaultDoc : Doc := ⟨DEFAULT_NODES, DEFAULT_EDGES⟩


/-- Per-axis view of the loop state of `getHelperLines`: candidate line,
snap coordinate, running minimum distance. -/
structure AxAcc where
  line : Option ℚ
  snap : Option ℚ
  dist : ℚ
  deriving DecidableEq, Repr

/-- One `if (dist < min) update` of the loop on one axis; a candidate is a
(distance, line, snap) triple. -/
def candStep (acc : AxAcc) (c : ℚ × ℚ × ℚ) : AxAcc :=
  if c.1 < acc.dist then ⟨some c.2.1, some c.2.2, c.1⟩ else acc

/-- The horizontal-line update of the loop, on the full loop state. -/
def hCandStep (acc : HLAcc) (c : ℚ × ℚ × ℚ) : HLAcc :=
  if c.1 < acc.minHorizontalDistance then
    { acc with minHorizontalDistance := c.1,
               closestHorizontal := some c.2.1,
               snapY := some c.2.2 }
  else acc

/-- The vertical-line update of the loop, on the full loop state. -/
def vCandStep (acc : HLAcc) (c : ℚ × ℚ × ℚ) : HLAcc :=
  if c.1 < acc.minVerticalDistance then
    { acc with minVerticalDistance := c.1,
               closestVertical := some c.2.1,
               snapX := some c.2.2 }
  else acc

/-- The three Y-axis candidates the loop derives from one other node, in
evaluation order: center-to-center, top-to-top, bottom-to-bottom. -/
def yCands (draggingNode node : Node) : List (ℚ × ℚ × ℚ) :=
  let draggingDim := getNodeDimensions draggingNode
  let nodeDim := getNodeDimensions node
  let nodeCenterY := node.position.y + nodeDim.height / 2
  let nodeTop := node.position.y
  let nodeBottom := node.position.y + nodeDim.height
  [(absq (draggingNode.position.y + draggingDim.height / 2 - nodeCenterY),
    nodeCenterY, nodeCenterY - draggingDim.height / 2),
   (absq (draggingNode.position.y - nodeTop), nodeTop, nodeTop),
   (absq (draggingNode.position.y + draggingDim.height - nodeBottom),
    nodeBottom, nodeBottom - draggingDim.height)]

/-- The three X-axis candidates, in evaluation order: center-to-center,
left-to-left, right-to-right. -/
def xCands (draggingNode node : Node) : List (ℚ × ℚ × ℚ) :=
  let draggingDim := getNodeDimensions draggingNode
  let nodeDim := getNodeDimensions node
  let nodeCenterX := node.position.x + nodeDim.width / 2
  let nodeLeft := node.position.x
  let nodeRight := node.position.x + nodeDim.width
  [(absq (draggingNode.position.x + draggingDim.width / 2 - nodeCenterX),
    nodeCenterX, nodeCenterX - draggingDim.width / 2),
   (absq (draggingNode.position.x - nodeLeft), nodeLeft, nodeLeft),
   (absq (draggingNode.position.x + draggingDim.width - nodeRight),
    nodeRight, nodeRight - draggingDim.width)]

/-- All Y candidates of the node list, skipping the dragged node, in loop
order. -/
def yCandList (draggingNode : Node) (nodes : List Node) :
    List (ℚ × ℚ × ℚ) :=
  (nodes.filter (fun n => n.id ≠ draggingNode.id)).flatMap (yCands draggingNode)

/-- All X candidates of the node list, skipping the dragged node, in loop
order. -/
def xCandList (draggingNode : Node) (nodes : List Node) :
    List (ℚ × ℚ × ℚ) :=
  (nodes.filter (fun n => n.id ≠ draggingNode.id)).flatMap (xCands draggingNode)

/-- The horizontal-axis projection of the loop state. -/
def hAx (acc : HLAcc) : AxAcc :=
  ⟨acc.closestHorizontal, acc.snapY, acc.minHorizontalDistance⟩

/-- The vertical-axis projection of the loop state. -/
def vAx (acc : HLAcc) : AxAcc :=
  ⟨acc.closestVertical, acc.snapX, acc.minVerticalDistance⟩

end MindMap

namespace Board

/-- The `NodeLayout` record of `types.ts`: position plus the outgoing `connections`
list of node ids. -/
structure NodeLayout where
  x : ℚ
  y : ℚ
  connections : List String
  deriving DecidableEq, Repr

/-- The `layout: Record<string, NodeLayout>` object of `MindMapBoard.tsx`,
as an insertion-ordered association list with distinct keys. -/
abbrev Layout := List (String × NodeLayout)

/-- JS property read `layout[id]` (`undefined` when absent). -/
def lookup (layout : Layout) (id : String) : Option NodeLayout :=
  (layout.find? (fun p => p.1 == id)).map (fun p => p.2)

/-- Source: `getNodePos(id)` - `layout[id] || { x: 100, y: 100,
connections: [] }`. -/
def getNodePos (layout : Layout) (id : String) : NodeLayout :=
  (lookup layout id).getD ⟨100, 100, []⟩

/-- The spread update `{ ...layout, [id]: v }`: overwrite an existing key
in place, or append a new one. -/
def setKey (layout : Layout) (id : String) (v : NodeLayout) : Layout :=
  if (lookup layout id).isSome then
    layout.map (fun p => if p.1 == id then (id, v) else p)
  else layout ++ [(id, v)]

/-- Source: `handleMouseUpNode` (dropping a link wire on a target node):
nothing happens when the target is the link's own source; otherwise, if
the target is not already among the source's `connections`, it is
appended (`// Avoid duplicates`). -/
def handleMouseUpNode (layout : Layout) (sourceId targetId : String) :
    Layout :=
  if sourceId = targetId then layout
  else
    let sourceNode := getNodePos layout sourceId
    if targetId ∈ sourceNode.connections then layout
    else
      setKey layout sourceId
        { sourceNode with connections := sourceNode.connections ++ [targetId] }

end Board


/-! ## Concrete instances used by the claim theorems -/

/-- The concrete one-node layout used to refute the unknown-id clause of
the connect claim: node `A` is on the board, `B` is unknown. -/
def boardL0 : Board.Layout := [("A", ⟨0, 0, []⟩)]

/-- A concrete editor state with two history entries and the cursor at the
top, used to witness the boundary claims. -/
def twoEntryState : MindMap.EditorState :=
  ⟨[], [], none, none, [⟨[], []⟩, ⟨MindMap.DEFAULT_NODES, MindMap.DEFAULT_EDGES⟩], 1, false⟩

/-- A two-entry state whose current selection is nonempty, to make the
selection-clearing observable. -/
def selectedState : MindMap.EditorState :=
  ⟨MindMap.DEFAULT_NODES, MindMap.DEFAULT_EDGES,
   some ⟨"health", ⟨750, 80⟩, "健康", some "💪", "category", none, none⟩, none,
   [⟨[], []⟩, ⟨MindMap.DEFAULT_NODES, MindMap.DEFAULT_EDGES⟩], 1, false⟩

/-- The editor state at mount before any checkpoint: empty history, cursor
-1, flag clear. -/
def emptyEditor : MindMap.EditorState := ⟨[], [], none, none, [], -1, false⟩

/-- The single node of the drag-gesture scenario. -/
def c3Node : MindMap.Node := ⟨"n0", ⟨0, 0⟩, "n", none, "leaf", none, none⟩

/-- The editor state holding the single node with one history entry. -/
def c3State : MindMap.EditorState :=
  ⟨[c3Node], [], none, none, [⟨[c3Node], []⟩], 0, false⟩

/-- The pointer events of one drag gesture of `n0`. -/
def c3Gesture : List MindMap.EditorEvent :=
  [.dragMove "n0" ⟨5, 5⟩, .dragMove "n0" ⟨10, 10⟩, .dragEnd "n0" none]

/-- Concrete nodes showing a horizontal snap (against `A`) and a vertical
snap (against `B`) active simultaneously for the dragged node `D`. -/
def simA : MindMap.Node := ⟨"A", ⟨200, 3⟩, "", none, "leaf", none, none⟩

/-- Second reference node of the simultaneity instance. -/
def simB : MindMap.Node := ⟨"B", ⟨4, 300⟩, "", none, "leaf", none, none⟩

/-- The dragged node of the simultaneity instance. -/
def simDrag : MindMap.Node := ⟨"D", ⟨0, 0⟩, "", none, "leaf", none, none⟩

/-- A dragged node far away from the single other node, for the no-snap
witness. -/
def farDrag : MindMap.Node := ⟨"F", ⟨1000, 1000⟩, "", none, "leaf", none, none⟩

/-- Node A of the concrete snap scenario, at (100, 100). -/
def nodeA : MindMap.Node := ⟨"A", ⟨100, 100⟩, "", none, "leaf", none, none⟩

/-- Node B of the concrete snap scenario, at (100, 108). -/
def nodeB : MindMap.Node := ⟨"B", ⟨100, 108⟩, "", none, "leaf", none, none⟩

/-! ## Helper lemmas -/

namespace Board

theorem lookup_nil (a : String) : lookup ([] : Layout) a = none := rfl

theorem lookup_cons (q : String × NodeLayout) (t : Layout) (a : String) :
    lookup (q :: t) a = if (q.1 == a) = true then some q.2 else lookup t a := by
  cases hqa : (q.1 == a) with
  | true => simp [lookup, List.find?, hqa]
  | false => simp [lookup, List.find?, hqa]

theorem lookup_cons_pos (q : String × NodeLayout) (t : Layout) (a : String)
    (h : (q.1 == a) = true) : lookup (q :: t) a = some q.2 := by
  rw [lookup_cons, if_pos h]

theorem lookup_cons_neg (q : String × NodeLayout) (t : Layout) (a : String)
    (h : ¬ (q.1 == a) = true) : lookup (q :: t) a = lookup t a := by
  rw [lookup_cons, if_neg h]

theorem lookup_map_update (l : Layout) (a : String) (v : NodeLayout)
    (h : (lookup l a).isSome) :
    lookup (l.map (fun p => if p.1 == a then (a, v) else p)) a = some v := by
  induction l with
  | nil => simp [lookup] at h
  | cons q t ih =>
    by_cases hqa : (q.1 == a) = true
    · rw [List.map_cons, if_pos hqa,
        lookup_cons_pos (a, v) _ a (beq_self_eq_true a)]
    · rw [List.map_cons, if_neg hqa, lookup_cons_neg q _ a hqa]
      rw [lookup_cons_neg q t a hqa] at h
      exact ih h

theorem lookup_append_absent (l : Layout) (a : String) (v : NodeLayout)
    (h : lookup l a = none) :
    lookup (l ++ [(a, v)]) a = some v := by
  induction l with
  | nil =>
    rw [List.nil_append]
    exact lookup_cons_pos (a, v) [] a (beq_self_eq_true a)
  | cons q t ih =>
    by_cases hqa : (q.1 == a) = true
    · rw [lookup_cons_pos q t a hqa] at h
      exact absurd h (by simp)
    · rw [List.cons_append, lookup_cons_neg q _ a hqa]
      rw [lookup_cons_neg q t a hqa] at h
      exact ih h

theorem lookup_setKey_self (l : Layout) (a : String) (v : NodeLayout) :
    lookup (setKey l a v) a = some v := by
  unfold setKey
  by_cases h : (lookup l a).isSome
  · rw [if_pos h]
    exact lookup_map_update l a v h
  · rw [if_neg h]
    exact lookup_append_absent l a v (by
      cases hl : lookup l a with
      | none => rfl
      | some w => rw [hl] at h; simp at h)

theorem getNodePos_setKey_self (l : Layout) (a : String) (v : NodeLayout) :
    getNodePos (setKey l a v) a = v := by
  unfold getNodePos
  rw [lookup_setKey_self]
  rfl

/-- Dropping a link on a target that is already connected from the source
changes nothing. -/
theorem handleMouseUpNode_of_mem (l : Layout) (a b : String)
    (hm : b ∈ (getNodePos l a).connections) :
    handleMouseUpNode l a b = l := by
  unfold handleMouseUpNode
  split
  · rfl
  · dsimp only
    rw [if_pos hm]

end Board

/-! ## Claim theorems -/

/-- C1 counterexample: `deleteNode('root')` on the default document is a
no-op, yet the resulting document still contains an edge whose source is
`root` - so it is not true that after any `deleteNode(id)` no edge
references `id`. -/
theorem deleteNode_root_leaves_edges :
    MindMap.handleDeleteNode MindMap.defaultDoc "root" = MindMap.defaultDoc ∧
    ((MindMap.handleDeleteNode MindMap.defaultDoc "root").edges.any
      (fun e => e.source == "root")) = true := by
  constructor
  · rfl
  · decide

/-- C1 (amended): `deleteNode(id)` is a no-op when `id` is the root node;
it is also a no-op for an unknown `id` as long as no edge references that
id (which holds in every document whose edges only reference existing
nodes); for `id ≠ root` it removes exactly the nodes with that id and
every edge whose source or target is `id`, so that afterwards no edge
references `id`. -/
theorem deleteNode_spec (d : MindMap.Doc) (id : String) :
    (id = "root" → MindMap.handleDeleteNode d id = d) ∧
    ((∀ n ∈ d.nodes, n.id ≠ id) → (∀ e ∈ d.edges, e.source ≠ id ∧ e.target ≠ id) →
      MindMap.handleDeleteNode d id = d) ∧
    (id ≠ "root" →
      (MindMap.handleDeleteNode d id).nodes
          = d.nodes.filter (fun n => n.id ≠ id) ∧
      (MindMap.handleDeleteNode d id).edges
          = d.edges.filter (fun e => e.source ≠ id ∧ e.target ≠ id) ∧
      (∀ n ∈ (MindMap.handleDeleteNode d id).nodes, n.id ≠ id) ∧
      (∀ e ∈ (MindMap.handleDeleteNode d id).edges,
        e.source ≠ id ∧ e.target ≠ id)) := by
  refine ⟨fun h => by simp [MindMap.handleDeleteNode, h], ?_, ?_⟩
  · intro hn he
    unfold MindMap.handleDeleteNode
    split
    · rfl
    · cases d with
      | mk nodes edges =>
        simp only [MindMap.Doc.mk.injEq]
        constructor
        · exact List.filter_eq_self.mpr (fun n hmem => by
            simpa using hn n hmem)
        · exact List.filter_eq_self.mpr (fun e hmem => by
            simpa using he e hmem)
  · intro hroot
    unfold MindMap.handleDeleteNode
    rw [if_neg hroot]
    refine ⟨rfl, rfl, ?_, ?_⟩
    · intro n hn
      simpa using (List.of_mem_filter hn)
    · intro e he
      simpa using (List.of_mem_filter he)

/-- C1 witness: deleting the non-root node `health` from the default
document removes it and leaves no edge referencing it. -/
theorem deleteNode_spec_witness :
    ("health" : String) ≠ "root" ∧
    (∀ e ∈ (MindMap.handleDeleteNode MindMap.defaultDoc "health").edges,
      e.source ≠ "health" ∧ e.target ≠ "health") :=
  ⟨by decide, ((deleteNode_spec MindMap.defaultDoc "health").2.2 (by decide)).2.2.2⟩


/-- C7 counterexample: with node `A` on the board and `B` unknown,
`connect(A, B)` is not a no-op - it appends `B` to `A`'s connections even
though `B` names no node. -/
theorem connect_unknown_not_noop :
    Board.handleMouseUpNode boardL0 "A" "B" ≠ boardL0 ∧
    (Board.getNodePos (Board.handleMouseUpNode boardL0 "A" "B") "A").connections
      = ["B"] := by
  constructor
  · decide
  · decide

/-- C7 (amended): `connect(sourceId, targetId)` is a no-op when the two
ids coincide or when the edge already exists; otherwise it appends
`targetId` to the source's `connections` (with no check that either id
names an existing node), and repeating `connect(A, B)` is a no-op, leaving
exactly one `A -> B` edge. -/
theorem connect_spec (layout : Board.Layout) (a b : String) :
    (Board.handleMouseUpNode layout a a = layout) ∧
    (b ∈ (Board.getNodePos layout a).connections →
      Board.handleMouseUpNode layout a b = layout) ∧
    (a ≠ b → b ∉ (Board.getNodePos layout a).connections →
      (Board.getNodePos (Board.handleMouseUpNode layout a b) a).connections
          = (Board.getNodePos layout a).connections ++ [b] ∧
      Board.handleMouseUpNode (Board.handleMouseUpNode layout a b) a b
          = Board.handleMouseUpNode layout a b ∧
      ((Board.getNodePos
          (Board.handleMouseUpNode (Board.handleMouseUpNode layout a b) a b)
          a).connections).count b = 1) := by
  refine ⟨by simp [Board.handleMouseUpNode],
    Board.handleMouseUpNode_of_mem layout a b, ?_⟩
  intro hab hmem
  have hstep :
      Board.handleMouseUpNode layout a b =
        Board.setKey layout a
          { Board.getNodePos layout a with
            connections := (Board.getNodePos layout a).connections ++ [b] } := by
    unfold Board.handleMouseUpNode
    rw [if_neg hab]
    dsimp only
    rw [if_neg hmem]
  have hget :
      (Board.getNodePos (Board.handleMouseUpNode layout a b) a).connections
        = (Board.getNodePos layout a).connections ++ [b] := by
    rw [hstep, Board.getNodePos_setKey_self]
  have hmem2 :
      b ∈ (Board.getNodePos (Board.handleMouseUpNode layout a b) a).connections := by
    rw [hget]
    exact List.mem_append_right _ (List.mem_singleton_self b)
  have hidem :
      Board.handleMouseUpNode (Board.handleMouseUpNode layout a b) a b
        = Board.handleMouseUpNode layout a b :=
    Board.handleMouseUpNode_of_mem _ a b hmem2
  refine ⟨hget, hidem, ?_⟩
  rw [hidem, hget, List.count_append,
    List.count_eq_zero_of_not_mem hmem]
  simp

/-- C7 witness: on the empty-connection two-node layout, connecting twice
yields exactly one `A -> B` connection. -/
theorem connect_spec_witness :
    (("A" : String) ≠ "B") ∧
    ("B" ∉ (Board.getNodePos boardL0 "A").connections) ∧
    ((Board.getNodePos
        (Board.handleMouseUpNode (Board.handleMouseUpNode boardL0 "A" "B") "A" "B")
        "A").connections).count "B" = 1 :=
  ⟨by decide, by decide,
    ((connect_spec boardL0 "A" "B").2.2 (by decide) (by decide)).2.2⟩

/-- C8: `handleUndo` is an exact no-op at cursor 0 (and below), `handleRedo`
an exact no-op at the top `length - 1` (and above); otherwise each moves the
cursor by exactly one and leaves the history sequence itself unchanged. -/
theorem undo_redo_boundaries (s : MindMap.EditorState) :
    (s.historyIndex ≤ 0 → MindMap.handleUndo s = s) ∧
    (s.historyIndex ≥ (s.history.length : Int) - 1 → MindMap.handleRedo s = s) ∧
    (0 < s.historyIndex →
      (MindMap.handleUndo s).historyIndex = s.historyIndex - 1 ∧
      (MindMap.handleUndo s).history = s.history) ∧
    (s.historyIndex < (s.history.length : Int) - 1 →
      (MindMap.handleRedo s).historyIndex = s.historyIndex + 1 ∧
      (MindMap.handleRedo s).history = s.history) := by
  refine ⟨?_, ?_, ?_, ?_⟩
  · intro h
    unfold MindMap.handleUndo
    rw [if_pos h]
  · intro h
    unfold MindMap.handleRedo
    rw [if_pos h]
  · intro h
    unfold MindMap.handleUndo
    rw [if_neg (by omega)]
    exact ⟨rfl, rfl⟩
  · intro h
    unfold MindMap.handleRedo
    rw [if_neg (by omega)]
    exact ⟨rfl, rfl⟩


/-- C8 witness: in the two-entry state at cursor 1, redo is a no-op and
undo moves the cursor to 0 without touching the history. -/
theorem undo_redo_boundaries_witness :
    (twoEntryState.historyIndex ≥ (twoEntryState.history.length : Int) - 1 →
      MindMap.handleRedo twoEntryState = twoEntryState) ∧
    (0 < twoEntryState.historyIndex →
      (MindMap.handleUndo twoEntryState).historyIndex = twoEntryState.historyIndex - 1 ∧
      (MindMap.handleUndo twoEntryState).history = twoEntryState.history) :=
  ⟨(undo_redo_boundaries twoEntryState).2.1,
   fun h => (undo_redo_boundaries twoEntryState).2.2.1 h⟩

/-- C10: whenever undo (resp. redo) actually moves the cursor, the
selection is cleared and the node and edge sets are replaced by those of
the target snapshot. -/
theorem undo_redo_clear_selection (s : MindMap.EditorState) :
    (0 < s.historyIndex →
      (MindMap.handleUndo s).selectedNode = none ∧
      (MindMap.handleUndo s).selectedEdge = none ∧
      (MindMap.handleUndo s).nodes
          = (s.history.getD (s.historyIndex - 1).toNat ⟨[], []⟩).nodes ∧
      (MindMap.handleUndo s).edges
          = (s.history.getD (s.historyIndex - 1).toNat ⟨[], []⟩).edges) ∧
    (s.historyIndex < (s.history.length : Int) - 1 →
      (MindMap.handleRedo s).selectedNode = none ∧
      (MindMap.handleRedo s).selectedEdge = none ∧
      (MindMap.handleRedo s).nodes
          = (s.history.getD (s.historyIndex + 1).toNat ⟨[], []⟩).nodes ∧
      (MindMap.handleRedo s).edges
          = (s.history.getD (s.historyIndex + 1).toNat ⟨[], []⟩).edges) := by
  constructor
  · intro h
    unfold MindMap.handleUndo
    rw [if_neg (by omega)]
    exact ⟨rfl, rfl, rfl, rfl⟩
  · intro h
    unfold MindMap.handleRedo
    rw [if_neg (by omega)]
    exact ⟨rfl, rfl, rfl, rfl⟩


/-- C10 witness: undoing from the selected two-entry state clears the
selection and restores the snapshot below the cursor. -/
theorem undo_redo_clear_selection_witness :
    0 < selectedState.historyIndex ∧
    ((MindMap.handleUndo selectedState).selectedNode = none ∧
     (MindMap.handleUndo selectedState).selectedEdge = none ∧
     (MindMap.handleUndo selectedState).nodes
        = (selectedState.history.getD
            (selectedState.historyIndex - 1).toNat ⟨[], []⟩).nodes ∧
     (MindMap.handleUndo selectedState).edges
        = (selectedState.history.getD
            (selectedState.historyIndex - 1).toNat ⟨[], []⟩).edges) :=
  ⟨by decide, (undo_redo_clear_selection selectedState).1 (by decide)⟩

/-- C9 counterexample: two `addNode` calls in the same millisecond (same
`Date.now()` value, here 5) both produce the id `node_5`, so the second id
collides with a node already present in the document. -/
theorem addNode_same_millisecond_collides :
    ((MindMap.handleAddNode (MindMap.handleAddNode ⟨[], []⟩ none "a" 5)
        none "b" 5).nodes.map (fun n => n.id)) = ["node_5", "node_5"] ∧
    ¬ ((MindMap.handleAddNode (MindMap.handleAddNode ⟨[], []⟩ none "a" 5)
        none "b" 5).nodes.map (fun n => n.id)).Nodup := by
  constructor
  · rfl
  · decide

/-- C9 (amended): `addNode` derives the new id from the current
`Date.now()` value; provided no node in the document already carries the
id derived from that timestamp, the call appends exactly one node whose id
differs from every id already present.  (Two adds within the same
millisecond reuse the same timestamp and therefore collide.) -/
theorem addNode_fresh_id (d : MindMap.Doc) (sel : Option MindMap.Node)
    (label : String) (now : Nat)
    (hlabel : MindMap.jsTrim label ≠ "")
    (hfresh : ∀ n ∈ d.nodes, n.id ≠ "node_" ++ toString now) :
    ∃ newNode : MindMap.Node,
      (MindMap.handleAddNode d sel label now).nodes = d.nodes ++ [newNode] ∧
      newNode.id = "node_" ++ toString now ∧
      ∀ n ∈ d.nodes, n.id ≠ newNode.id := by
  unfold MindMap.handleAddNode
  rw [if_neg hlabel]
  cases sel with
  | none => exact ⟨_, rfl, rfl, hfresh⟩
  | some sn => exact ⟨_, rfl, rfl, hfresh⟩

/-- C9 witness: adding a node at timestamp 5 to the default document
yields a fresh id. -/
theorem addNode_fresh_id_witness :
    MindMap.jsTrim "x" ≠ "" ∧
    (∀ n ∈ MindMap.defaultDoc.nodes, n.id ≠ "node_" ++ toString 5) ∧
    (∃ newNode : MindMap.Node,
      (MindMap.handleAddNode MindMap.defaultDoc none "x" 5).nodes
          = MindMap.defaultDoc.nodes ++ [newNode] ∧
      newNode.id = "node_" ++ toString 5 ∧
      ∀ n ∈ MindMap.defaultDoc.nodes, n.id ≠ newNode.id) :=
  ⟨by decide, by decide,
    addNode_fresh_id MindMap.defaultDoc none "x" 5 (by decide) (by decide)⟩

namespace MindMap

theorem pushN_length_index (s0 : EditorState)
    (h0h : s0.history = []) (h0i : s0.historyIndex = -1)
    (h0f : s0.isUndoRedo = false) :
    ∀ n : Nat, 1 ≤ n →
      (pushN n s0).history.length = min n 50 ∧
      (pushN n s0).historyIndex = ((min (n - 1) 49 : Nat) : Int) ∧
      (pushN n s0).isUndoRedo = false := by
  intro n
  induction n with
  | zero => intro h; exact absurd h (by omega)
  | succ m ih =>
    intro _
    rw [show pushN (m + 1) s0 = saveToHistory (pushN m s0) from rfl]
    by_cases hm : 1 ≤ m
    · obtain ⟨ihlen, ihidx, ihflag⟩ := ih hm
      unfold saveToHistory
      rw [if_neg (by rw [ihflag]; simp)]
      refine ⟨?_, ?_, ihflag⟩
      · show (sliceLast50 _).length = _
        unfold sliceLast50
        rw [List.length_drop, List.length_append, List.length_take,
          List.length_cons, List.length_nil, ihlen, ihidx]
        have htn : (((min (m - 1) 49 : Nat) : Int) + 1).toNat
            = min (m - 1) 49 + 1 := by omega
        rw [htn]
        omega
      · show (min ((pushN m s0).historyIndex + 1) 49 : Int) = _
        rw [ihidx]
        omega
    · have hm0 : m = 0 := by omega
      subst hm0
      rw [show pushN 0 s0 = s0 from rfl]
      unfold saveToHistory
      rw [if_neg (by rw [h0f]; simp)]
      refine ⟨?_, ?_, h0f⟩
      · show (sliceLast50 _).length = _
        unfold sliceLast50
        rw [List.length_drop, List.length_append, List.length_take,
          List.length_cons, List.length_nil, h0h, h0i]
        decide
      · show (min (s0.historyIndex + 1) 49 : Int) = _
        rw [h0i]
        decide

theorem undoN_index_history (X : EditorState) (hidx : X.historyIndex = 49) :
    ∀ j : Nat, j ≤ 49 →
      (undoN j X).historyIndex = 49 - (j : Int) ∧
      (undoN j X).history = X.history := by
  intro j
  induction j with
  | zero => intro _; exact ⟨by simp [undoN, hidx], rfl⟩
  | succ i ih =>
    intro hj
    obtain ⟨ihidx, ihhist⟩ := ih (by omega)
    rw [show undoN (i + 1) X = handleUndo (undoN i X) from rfl]
    unfold handleUndo
    rw [if_neg (by rw [ihidx]; omega)]
    refine ⟨?_, ihhist⟩
    show (undoN i X).historyIndex - 1 = _
    rw [ihidx]
    push_cast
    ring

theorem saveToHistory_at_capacity (s : EditorState)
    (hlen : s.history.length = 50) (hidx : s.historyIndex = 49)
    (hflag : s.isUndoRedo = false) :
    (saveToHistory s).history = s.history.drop 1 ++ [⟨s.nodes, s.edges⟩] ∧
    (saveToHistory s).historyIndex = 49 := by
  unfold saveToHistory
  rw [if_neg (by rw [hflag]; simp)]
  constructor
  · show sliceLast50 (s.history.take (s.historyIndex + 1).toNat ++ _) = _
    rw [hidx]
    have h50 : ((49 : Int) + 1).toNat = 50 := by decide
    rw [h50, List.take_of_length_le (by rw [hlen])]
    unfold sliceLast50
    rw [List.length_append, hlen, List.length_cons, List.length_nil]
    have h1 : (50 + (0 + 1)) - 50 = 1 := by decide
    rw [h1, List.drop_append_of_le_length (by rw [hlen]; omega)]
  · show (min (s.historyIndex + 1) 49 : Int) = 49
    rw [hidx]
    decide

end MindMap

/-- C2: the undo history is a bounded sequence of capacity 50 whose cursor
satisfies `0 ≤ cursor < length` and sits at the newly pushed top after
every checkpoint; pushing at capacity drops the oldest entry (index 0) and
keeps the cursor at 49; and `capacity + k` checkpoints from the empty
history (k ≥ 1) leave exactly 50 entries, after which `handleUndo` moves
the cursor exactly 49 times before becoming a no-op. -/
theorem history_bounds (s0 : MindMap.EditorState)
    (h0h : s0.history = []) (h0i : s0.historyIndex = -1)
    (h0f : s0.isUndoRedo = false) (k : Nat) (hk : 1 ≤ k) :
    (MindMap.pushN (50 + k) s0).history.length = 50 ∧
    (MindMap.pushN (50 + k) s0).historyIndex = 49 ∧
    (∀ n : Nat, 1 ≤ n →
      0 ≤ (MindMap.pushN n s0).historyIndex ∧
      (MindMap.pushN n s0).historyIndex
          < ((MindMap.pushN n s0).history.length : Int) ∧
      (MindMap.pushN n s0).history.length ≤ 50 ∧
      (MindMap.pushN n s0).historyIndex
          = ((MindMap.pushN n s0).history.length : Int) - 1) ∧
    (∀ s : MindMap.EditorState, s.history.length = 50 → s.historyIndex = 49 →
      s.isUndoRedo = false →
      (MindMap.saveToHistory s).history
          = s.history.drop 1 ++ [⟨s.nodes, s.edges⟩] ∧
      (MindMap.saveToHistory s).historyIndex = 49) ∧
    (∀ j : Nat, j ≤ 49 →
      (MindMap.undoN j (MindMap.pushN (50 + k) s0)).historyIndex
          = 49 - (j : Int)) ∧
    (∀ j : Nat, j < 49 →
      MindMap.handleUndo (MindMap.undoN j (MindMap.pushN (50 + k) s0))
        ≠ MindMap.undoN j (MindMap.pushN (50 + k) s0)) ∧
    MindMap.handleUndo (MindMap.undoN 49 (MindMap.pushN (50 + k) s0))
      = MindMap.undoN 49 (MindMap.pushN (50 + k) s0) := by
  obtain ⟨hlen, hidx, -⟩ :=
    MindMap.pushN_length_index s0 h0h h0i h0f (50 + k) (by omega)
  have hlen50 : (MindMap.pushN (50 + k) s0).history.length = 50 := by
    rw [hlen]; omega
  have hidx49 : (MindMap.pushN (50 + k) s0).historyIndex = 49 := by
    rw [hidx]
    have : min (50 + k - 1) 49 = 49 := by omega
    rw [this]
    rfl
  have hundo := MindMap.undoN_index_history _ hidx49
  refine ⟨hlen50, hidx49, ?_, ?_, ?_, ?_, ?_⟩
  · intro n hn
    obtain ⟨hl, hi, -⟩ := MindMap.pushN_length_index s0 h0h h0i h0f n hn
    rw [hl, hi]
    omega
  · intro s hl hi hf
    exact MindMap.saveToHistory_at_capacity s hl hi hf
  · intro j hj
    exact (hundo j hj).1
  · intro j hj heq
    have h1 : (MindMap.undoN (j + 1) (MindMap.pushN (50 + k) s0)).historyIndex
        = 49 - ((j + 1 : Nat) : Int) := (hundo (j + 1) (by omega)).1
    have h2 : (MindMap.undoN j (MindMap.pushN (50 + k) s0)).historyIndex
        = 49 - (j : Int) := (hundo j (by omega)).1
    have h3 : MindMap.undoN (j + 1) (MindMap.pushN (50 + k) s0)
        = MindMap.handleUndo (MindMap.undoN j (MindMap.pushN (50 + k) s0)) := rfl
    rw [h3, heq, h2] at h1
    push_cast at h1
    omega
  · have h0 : (MindMap.undoN 49 (MindMap.pushN (50 + k) s0)).historyIndex
        = 0 := by
      rw [(hundo 49 (by omega)).1]
      decide
    unfold MindMap.handleUndo
    rw [if_pos (by rw [h0])]


/-- C2 witness: 51 checkpoints from the empty state leave exactly 50
entries with the cursor at 49. -/
theorem history_bounds_witness :
    (emptyEditor.history = [] ∧ emptyEditor.historyIndex = -1 ∧
     emptyEditor.isUndoRedo = false ∧ 1 ≤ 1) ∧
    (MindMap.pushN (50 + 1) emptyEditor).history.length = 50 ∧
    (MindMap.pushN (50 + 1) emptyEditor).historyIndex = 49 :=
  ⟨⟨rfl, rfl, rfl, by decide⟩,
   (history_bounds emptyEditor rfl rfl rfl 1 (by decide)).1,
   (history_bounds emptyEditor rfl rfl rfl 1 (by decide)).2.1⟩

namespace MindMap

theorem applyNodeChanges_length (cs : List NodeChange) (ns : List Node) :
    (applyNodeChanges cs ns).length = ns.length := by
  induction cs generalizing ns with
  | nil => rfl
  | cons c t ih =>
    have h1 : applyNodeChanges (c :: t) ns = applyNodeChanges t
        (match c with
         | .position id (some p) _ =>
           ns.map (fun n => if n.id == id then { n with position := p } else n)
         | _ => ns) := rfl
    rw [h1, ih]
    cases c with
    | position id pos dragging =>
      cases pos with
      | none => rfl
      | some p => simp
    | other => rfl

end MindMap


/-- C3 counterexample theorem: after the gesture the node has moved to
(10, 10), yet the history still has its single original entry - zero
checkpoints were taken, not exactly one. -/
theorem drag_gesture_takes_no_checkpoint :
    (c3Gesture.foldl MindMap.step c3State).history = c3State.history ∧
    (c3Gesture.foldl MindMap.step c3State).historyIndex = c3State.historyIndex ∧
    (c3Gesture.foldl MindMap.step c3State).nodes
      = [{ c3Node with position := ⟨10, 10⟩ }] := by
  refine ⟨?_, ?_, ?_⟩ <;> decide

/-- C3 (amended): the checkpoint effect is keyed on the node/edge counts,
so a checkpoint is taken exactly by the structural mutations - node add
(nonempty label), node delete (present, non-root), edge delete (present)
and connect (both ends known, no duplicate, not a self-loop) - while
intermediate drag moves, the drag release, relabel and recolor never touch
the history or its cursor. -/
theorem checkpoint_policy :
    (∀ (s : MindMap.EditorState) (id : String) (p : MindMap.Pos),
      (MindMap.step s (.dragMove id p)).history = s.history ∧
      (MindMap.step s (.dragMove id p)).historyIndex = s.historyIndex ∧
      (MindMap.step s (.dragMove id p)).isUndoRedo = s.isUndoRedo) ∧
    (∀ (s : MindMap.EditorState) (id : String) (p : Option MindMap.Pos),
      (MindMap.step s (.dragEnd id p)).history = s.history ∧
      (MindMap.step s (.dragEnd id p)).historyIndex = s.historyIndex ∧
      (MindMap.step s (.dragEnd id p)).isUndoRedo = s.isUndoRedo) ∧
    (∀ (s : MindMap.EditorState) (lab : String),
      (MindMap.step s (.relabel lab)).history = s.history ∧
      (MindMap.step s (.relabel lab)).historyIndex = s.historyIndex) ∧
    (∀ (s : MindMap.EditorState) (c : String),
      (MindMap.step s (.recolor c)).history = s.history ∧
      (MindMap.step s (.recolor c)).historyIndex = s.historyIndex) ∧
    (∀ (s : MindMap.EditorState) (lab : String) (now : Nat),
      MindMap.jsTrim lab ≠ "" →
      MindMap.step s (.addNode lab now)
        = MindMap.saveToHistory (MindMap.applyEvent s (.addNode lab now))) ∧
    (∀ (s : MindMap.EditorState) (sel : MindMap.Node),
      s.selectedNode = some sel → sel.id ≠ "root" →
      (∃ n ∈ s.nodes, n.id = sel.id) →
      MindMap.step s .deleteNode
        = MindMap.saveToHistory (MindMap.applyEvent s .deleteNode)) ∧
    (∀ (s : MindMap.EditorState) (sel : MindMap.Edge),
      s.selectedEdge = some sel →
      (∃ e ∈ s.edges, e.id = sel.id) →
      MindMap.step s .deleteEdge
        = MindMap.saveToHistory (MindMap.applyEvent s .deleteEdge)) ∧
    (∀ (s : MindMap.EditorState) (src tgt : String),
      src ≠ tgt →
      (s.nodes.find? (fun n => n.id == src)).isSome →
      (s.nodes.find? (fun n => n.id == tgt)).isSome →
      ¬ (s.edges.any (fun e => e.source == src && e.target == tgt) = true) →
      MindMap.step s (.connect src tgt)
        = MindMap.saveToHistory (MindMap.applyEvent s (.connect src tgt))) := by
  refine ⟨?_, ?_, ?_, ?_, ?_, ?_, ?_, ?_⟩
  · intro s id p
    have hn : (MindMap.applyEvent s (.dragMove id p)).nodes.length
        = s.nodes.length := MindMap.applyNodeChanges_length _ _
    unfold MindMap.step
    rw [if_pos ⟨hn, rfl⟩]
    exact ⟨rfl, rfl, rfl⟩
  · intro s id p
    have hn : (MindMap.applyEvent s (.dragEnd id p)).nodes.length
        = s.nodes.length := MindMap.applyNodeChanges_length _ _
    unfold MindMap.step
    rw [if_pos ⟨hn, rfl⟩]
    exact ⟨rfl, rfl, rfl⟩
  · intro s lab
    have hkey : (MindMap.applyEvent s (.relabel lab)).nodes.length
          = s.nodes.length ∧
        (MindMap.applyEvent s (.relabel lab)).edges = s.edges ∧
        (MindMap.applyEvent s (.relabel lab)).history = s.history ∧
        (MindMap.applyEvent s (.relabel lab)).historyIndex = s.historyIndex := by
      unfold MindMap.applyEvent
      cases hs : s.selectedNode with
      | none => exact ⟨rfl, rfl, rfl, rfl⟩
      | some sel =>
        dsimp only
        by_cases h : MindMap.jsTrim lab = ""
        · rw [if_pos h]
          exact ⟨rfl, rfl, rfl, rfl⟩
        · rw [if_neg h]
          exact ⟨by simp, rfl, rfl, rfl⟩
    unfold MindMap.step
    rw [if_pos ⟨hkey.1, by rw [hkey.2.1]⟩]
    exact ⟨hkey.2.2.1, hkey.2.2.2⟩
  · intro s c
    have hkey : (MindMap.applyEvent s (.recolor c)).nodes.length
          = s.nodes.length ∧
        (MindMap.applyEvent s (.recolor c)).edges = s.edges ∧
        (MindMap.applyEvent s (.recolor c)).history = s.history ∧
        (MindMap.applyEvent s (.recolor c)).historyIndex = s.historyIndex := by
      unfold MindMap.applyEvent
      cases hs : s.selectedNode with
      | none => exact ⟨rfl, rfl, rfl, rfl⟩
      | some sel => exact ⟨by simp, rfl, rfl, rfl⟩
    unfold MindMap.step
    rw [if_pos ⟨hkey.1, by rw [hkey.2.1]⟩]
    exact ⟨hkey.2.2.1, hkey.2.2.2⟩
  · intro s lab now hlab
    have hn : (MindMap.applyEvent s (.addNode lab now)).nodes.length
        = s.nodes.length + 1 := by
      unfold MindMap.applyEvent
      dsimp only
      unfold MindMap.handleAddNode
      rw [if_neg hlab]
      cases s.selectedNode with
      | none => simp
      | some sn => simp
    unfold MindMap.step
    rw [if_neg (by intro hc; rw [hn] at hc; omega)]
  · intro s sel hsel hroot hmem
    have hn : (MindMap.applyEvent s .deleteNode).nodes.length
        < s.nodes.length := by
      unfold MindMap.applyEvent
      rw [hsel]
      dsimp only
      rw [if_neg hroot]
      unfold MindMap.handleDeleteNode
      rw [if_neg hroot]
      obtain ⟨n, hnmem, hnid⟩ := hmem
      exact List.length_filter_lt_length_iff_exists.mpr
        ⟨n, hnmem, by simp [hnid]⟩
    unfold MindMap.step
    rw [if_neg (by intro hc; rw [hc.1] at hn; omega)]
  · intro s sel hsel hmem
    have hn : (MindMap.applyEvent s .deleteEdge).edges.length
        < s.edges.length := by
      unfold MindMap.applyEvent
      rw [hsel]
      dsimp only
      obtain ⟨e, hemem, heid⟩ := hmem
      exact List.length_filter_lt_length_iff_exists.mpr
        ⟨e, hemem, by simp [heid]⟩
    unfold MindMap.step
    rw [if_neg (by intro hc; rw [hc.2] at hn; omega)]
  · intro s src tgt hne hsrc htgt hdup
    have hn : (MindMap.applyEvent s (.connect src tgt)).edges.length
        = s.edges.length + 1 := by
      unfold MindMap.applyEvent
      dsimp only
      unfold MindMap.connectEdges
      rw [if_neg (by
        intro hc
        rcases hc with h | h | h | h
        · exact hne h
        · rw [Option.isNone_iff_eq_none] at h
          rw [h] at hsrc
          simp at hsrc
        · rw [Option.isNone_iff_eq_none] at h
          rw [h] at htgt
          simp at htgt
        · exact hdup h)]
      simp
    unfold MindMap.step
    rw [if_neg (by intro hc; rw [hn] at hc; omega)]

/-- C3 witness: in the concrete one-node state, a node add with a nonempty
label goes through `saveToHistory`. -/
theorem checkpoint_policy_witness :
    MindMap.jsTrim "m" ≠ "" ∧
    MindMap.step c3State (.addNode "m" 7)
      = MindMap.saveToHistory (MindMap.applyEvent c3State (.addNode "m" 7)) :=
  ⟨by decide, (checkpoint_policy.2.2.2.2.1) c3State "m" 7 (by decide)⟩

namespace MindMap


theorem hlStep_eq_foldl (d : Node) (acc : HLAcc) (n : Node) :
    hlStep d acc n =
      if n.id = d.id then acc
      else (xCands d n).foldl vCandStep ((yCands d n).foldl hCandStep acc) :=
  rfl

theorem hCandStep_spec (acc : HLAcc) (c : ℚ × ℚ × ℚ) :
    hAx (hCandStep acc c) = candStep (hAx acc) c ∧
    vAx (hCandStep acc c) = vAx acc ∧
    (hCandStep acc c).alignType = acc.alignType := by
  unfold hCandStep candStep hAx vAx
  split_ifs with h
  · exact ⟨rfl, rfl, rfl⟩
  · exact ⟨rfl, rfl, rfl⟩

theorem vCandStep_spec (acc : HLAcc) (c : ℚ × ℚ × ℚ) :
    vAx (vCandStep acc c) = candStep (vAx acc) c ∧
    hAx (vCandStep acc c) = hAx acc ∧
    (vCandStep acc c).alignType = acc.alignType := by
  unfold vCandStep candStep hAx vAx
  split_ifs with h
  · exact ⟨rfl, rfl, rfl⟩
  · exact ⟨rfl, rfl, rfl⟩

theorem foldl_hCandStep_spec (cs : List (ℚ × ℚ × ℚ)) :
    ∀ acc : HLAcc,
      hAx (cs.foldl hCandStep acc) = cs.foldl candStep (hAx acc) ∧
      vAx (cs.foldl hCandStep acc) = vAx acc ∧
      (cs.foldl hCandStep acc).alignType = acc.alignType := by
  induction cs with
  | nil => intro acc; exact ⟨rfl, rfl, rfl⟩
  | cons c t ih =>
    intro acc
    rw [List.foldl_cons, List.foldl_cons]
    obtain ⟨h1, h2, h3⟩ := ih (hCandStep acc c)
    obtain ⟨g1, g2, g3⟩ := hCandStep_spec acc c
    exact ⟨by rw [h1, g1], by rw [h2, g2], by rw [h3, g3]⟩

theorem foldl_vCandStep_spec (cs : List (ℚ × ℚ × ℚ)) :
    ∀ acc : HLAcc,
      vAx (cs.foldl vCandStep acc) = cs.foldl candStep (vAx acc) ∧
      hAx (cs.foldl vCandStep acc) = hAx acc ∧
      (cs.foldl vCandStep acc).alignType = acc.alignType := by
  induction cs with
  | nil => intro acc; exact ⟨rfl, rfl, rfl⟩
  | cons c t ih =>
    intro acc
    rw [List.foldl_cons, List.foldl_cons]
    obtain ⟨h1, h2, h3⟩ := ih (vCandStep acc c)
    obtain ⟨g1, g2, g3⟩ := vCandStep_spec acc c
    exact ⟨by rw [h1, g1], by rw [h2, g2], by rw [h3, g3]⟩

theorem hlStep_spec (d : Node) (n : Node) (acc : HLAcc) :
    hAx (hlStep d acc n)
        = (yCandList d [n]).foldl candStep (hAx acc) ∧
    vAx (hlStep d acc n)
        = (xCandList d [n]).foldl candStep (vAx acc) ∧
    (hlStep d acc n).alignType = acc.alignType := by
  rw [hlStep_eq_foldl]
  by_cases h : n.id = d.id
  · rw [if_pos h]
    have hfilter : [n].filter (fun m => m.id ≠ d.id) = [] := by
      simp [List.filter, h]
    unfold yCandList xCandList
    rw [hfilter]
    exact ⟨rfl, rfl, rfl⟩
  · rw [if_neg h]
    have hfilter : [n].filter (fun m => m.id ≠ d.id) = [n] := by
      simp [List.filter, h]
    unfold yCandList xCandList
    rw [hfilter]
    obtain ⟨v1, v2, v3⟩ :=
      foldl_vCandStep_spec (xCands d n) ((yCands d n).foldl hCandStep acc)
    obtain ⟨h1, h2, h3⟩ := foldl_hCandStep_spec (yCands d n) acc
    refine ⟨?_, ?_, ?_⟩
    · rw [v2, h1]
      simp [List.flatMap]
    · rw [v1, h2]
      simp [List.flatMap]
    · rw [v3, h3]

theorem foldl_hlStep_spec (d : Node) (nodes : List Node) :
    ∀ acc : HLAcc,
      hAx (nodes.foldl (hlStep d) acc)
          = (yCandList d nodes).foldl candStep (hAx acc) ∧
      vAx (nodes.foldl (hlStep d) acc)
          = (xCandList d nodes).foldl candStep (vAx acc) ∧
      (nodes.foldl (hlStep d) acc).alignType = acc.alignType := by
  induction nodes with
  | nil => intro acc; exact ⟨rfl, rfl, rfl⟩
  | cons n t ih =>
    intro acc
    rw [List.foldl_cons]
    obtain ⟨h1, h2, h3⟩ := ih (hlStep d acc n)
    obtain ⟨g1, g2, g3⟩ := hlStep_spec d n acc
    have hy : yCandList d (n :: t)
        = yCandList d [n] ++ yCandList d t := by
      unfold yCandList
      by_cases h : n.id = d.id <;>
        simp [List.filter_cons, h, List.flatMap]
    have hx : xCandList d (n :: t)
        = xCandList d [n] ++ xCandList d t := by
      unfold xCandList
      by_cases h : n.id = d.id <;>
        simp [List.filter_cons, h, List.flatMap]
    refine ⟨?_, ?_, by rw [h3, g3]⟩
    · rw [h1, g1, hy, List.foldl_append]
    · rw [h2, g2, hx, List.foldl_append]

theorem getHelperLines_decomp (d : Node) (nodes : List Node) :
    getHelperLines d nodes =
      ⟨((yCandList d nodes).foldl candStep ⟨none, none, SNAP_THRESHOLD⟩).line,
       ((xCandList d nodes).foldl candStep ⟨none, none, SNAP_THRESHOLD⟩).line,
       ((xCandList d nodes).foldl candStep ⟨none, none, SNAP_THRESHOLD⟩).snap,
       ((yCandList d nodes).foldl candStep ⟨none, none, SNAP_THRESHOLD⟩).snap,
       none⟩ := by
  obtain ⟨h1, h2, h3⟩ := foldl_hlStep_spec d nodes
    ⟨none, none, none, none, none, SNAP_THRESHOLD, SNAP_THRESHOLD⟩
  unfold getHelperLines
  dsimp only
  have e1 := congrArg AxAcc.line h1
  have e2 := congrArg AxAcc.snap h1
  have e3 := congrArg AxAcc.line h2
  have e4 := congrArg AxAcc.snap h2
  simp only [hAx, vAx] at e1 e2 e3 e4
  rw [e1, e2, e3, e4, h3]

end MindMap

namespace MindMap

theorem foldl_candStep_id (cs : List (ℚ × ℚ × ℚ)) :
    ∀ a : AxAcc, (∀ c ∈ cs, a.dist ≤ c.1) → cs.foldl candStep a = a := by
  induction cs with
  | nil => intro a _; rfl
  | cons c t ih =>
    intro a h
    rw [List.foldl_cons]
    have hc : ¬ c.1 < a.dist := not_lt.mpr (h c (List.mem_cons_self c t))
    unfold candStep
    rw [if_neg hc]
    exact ih a (fun x hx => h x (List.mem_cons_of_mem c hx))

theorem foldl_candStep_cases (cs : List (ℚ × ℚ × ℚ)) :
    ∀ a : AxAcc,
      (cs.foldl candStep a = a ∧ ∀ c ∈ cs, a.dist ≤ c.1) ∨
      (∃ i : Fin cs.length,
        (cs.get i).1 < a.dist ∧
        (∀ j : Fin cs.length, (cs.get i).1 ≤ (cs.get j).1) ∧
        (∀ j : Fin cs.length, (j : Nat) < (i : Nat) →
          (cs.get i).1 < (cs.get j).1) ∧
        cs.foldl candStep a
          = ⟨some (cs.get i).2.1, some (cs.get i).2.2, (cs.get i).1⟩) := by
  induction cs with
  | nil =>
    intro a
    left
    exact ⟨rfl, by intro c hc; cases hc⟩
  | cons c t ih =>
    intro a
    by_cases hc : c.1 < a.dist
    · have hstep : (c :: t).foldl candStep a
          = t.foldl candStep ⟨some c.2.1, some c.2.2, c.1⟩ := by
        rw [List.foldl_cons]
        unfold candStep
        rw [if_pos hc]
      rcases ih ⟨some c.2.1, some c.2.2, c.1⟩ with
        ⟨hfix, hall⟩ | ⟨i, hlt, hmin, hfirst, heq⟩
      · right
        have hz : (0 : Nat) < (c :: t).length := by simp
        have hA : ((c :: t).get ⟨0, hz⟩).1 < a.dist := hc
        have hB : ∀ j : Fin (c :: t).length,
            ((c :: t).get ⟨0, hz⟩).1 ≤ ((c :: t).get j).1 := by
          intro j
          obtain ⟨jv, hj⟩ := j
          cases jv with
          | zero => exact le_refl _
          | succ jv =>
            have hjv : jv < t.length := by simpa using hj
            exact hall (t.get ⟨jv, hjv⟩) (t.get_mem _ _)
        have hC : ∀ j : Fin (c :: t).length,
            (j : Nat) < ((⟨0, hz⟩ : Fin (c :: t).length) : Nat) →
            ((c :: t).get ⟨0, hz⟩).1 < ((c :: t).get j).1 := by
          intro j hj0
          exact absurd hj0 (by simp)
        have hD : (c :: t).foldl candStep a
            = ⟨some ((c :: t).get ⟨0, hz⟩).2.1,
               some ((c :: t).get ⟨0, hz⟩).2.2,
               ((c :: t).get ⟨0, hz⟩).1⟩ := by
          rw [hstep, hfix]
          rfl
        exact ⟨⟨0, hz⟩, hA, hB, hC, hD⟩
      · right
        have hi1 : (i : Nat) + 1 < (c :: t).length := by simp
        have hlt' : (t.get i).1 < c.1 := hlt
        have hgi : ((c :: t).get ⟨(i : Nat) + 1, hi1⟩) = t.get i := rfl
        have hA : ((c :: t).get ⟨(i : Nat) + 1, hi1⟩).1 < a.dist := by
          rw [hgi]
          exact lt_trans hlt' hc
        have hB : ∀ j : Fin (c :: t).length,
            ((c :: t).get ⟨(i : Nat) + 1, hi1⟩).1 ≤ ((c :: t).get j).1 := by
          intro j
          obtain ⟨jv, hj⟩ := j
          rw [hgi]
          cases jv with
          | zero => exact le_of_lt hlt'
          | succ jv =>
            have hjv : jv < t.length := by simpa using hj
            exact hmin ⟨jv, hjv⟩
        have hC : ∀ j : Fin (c :: t).length,
            (j : Nat) < (i : Nat) + 1 →
            ((c :: t).get ⟨(i : Nat) + 1, hi1⟩).1 < ((c :: t).get j).1 := by
          intro j hj0
          obtain ⟨jv, hj⟩ := j
          rw [hgi]
          cases jv with
          | zero => exact hlt'
          | succ jv =>
            have hjv : jv < t.length := by simpa using hj
            exact hfirst ⟨jv, hjv⟩ (by simpa using hj0)
        have hD : (c :: t).foldl candStep a
            = ⟨some ((c :: t).get ⟨(i : Nat) + 1, hi1⟩).2.1,
               some ((c :: t).get ⟨(i : Nat) + 1, hi1⟩).2.2,
               ((c :: t).get ⟨(i : Nat) + 1, hi1⟩).1⟩ := by
          rw [hstep, heq, hgi]
        exact ⟨⟨(i : Nat) + 1, hi1⟩, hA, hB, hC, hD⟩
    · have hstep : (c :: t).foldl candStep a = t.foldl candStep a := by
        rw [List.foldl_cons]
        unfold candStep
        rw [if_neg hc]
      rcases ih a with ⟨hfix, hall⟩ | ⟨i, hlt, hmin, hfirst, heq⟩
      · left
        refine ⟨by rw [hstep, hfix], ?_⟩
        intro x hx
        rcases List.mem_cons.mp hx with hxc | hmem
        · rw [hxc]
          exact le_of_not_lt hc
        · exact hall x hmem
      · right
        have hi1 : (i : Nat) + 1 < (c :: t).length := by simp
        have hgi : ((c :: t).get ⟨(i : Nat) + 1, hi1⟩) = t.get i := rfl
        have hA : ((c :: t).get ⟨(i : Nat) + 1, hi1⟩).1 < a.dist := by
          rw [hgi]
          exact hlt
        have hB : ∀ j : Fin (c :: t).length,
            ((c :: t).get ⟨(i : Nat) + 1, hi1⟩).1 ≤ ((c :: t).get j).1 := by
          intro j
          obtain ⟨jv, hj⟩ := j
          rw [hgi]
          cases jv with
          | zero => exact le_of_lt (lt_of_lt_of_le hlt (le_of_not_lt hc))
          | succ jv =>
            have hjv : jv < t.length := by simpa using hj
            exact hmin ⟨jv, hjv⟩
        have hC : ∀ j : Fin (c :: t).length,
            (j : Nat) < (i : Nat) + 1 →
            ((c :: t).get ⟨(i : Nat) + 1, hi1⟩).1 < ((c :: t).get j).1 := by
          intro j hj0
          obtain ⟨jv, hj⟩ := j
          rw [hgi]
          cases jv with
          | zero => exact lt_of_lt_of_le hlt (le_of_not_lt hc)
          | succ jv =>
            have hjv : jv < t.length := by simpa using hj
            exact hfirst ⟨jv, hjv⟩ (by simpa using hj0)
        have hD : (c :: t).foldl candStep a
            = ⟨some ((c :: t).get ⟨(i : Nat) + 1, hi1⟩).2.1,
               some ((c :: t).get ⟨(i : Nat) + 1, hi1⟩).2.2,
               ((c :: t).get ⟨(i : Nat) + 1, hi1⟩).1⟩ := by
          rw [hstep, heq, hgi]
        exact ⟨⟨(i : Nat) + 1, hi1⟩, hA, hB, hC, hD⟩

end MindMap


/-- C4: the alignment engine decomposes per axis - the horizontal result
is a fold over the per-node Y candidates (center/top/bottom) and the
vertical result over the X candidates (center/left/right), in loop order,
so the two axes are independent; an axis whose candidate distances all
reach the 8-unit threshold suggests no snap; a reported snap line is the
first candidate attaining the strict minimum distance, which is below the
threshold (ties in favour of the earlier node); and both axes can snap
simultaneously against two different reference nodes. -/
theorem alignment_engine_spec :
    (∀ (d : MindMap.Node) (nodes : List MindMap.Node),
      ((MindMap.getHelperLines d nodes).horizontal
          = ((MindMap.yCandList d nodes).foldl MindMap.candStep
              ⟨none, none, MindMap.SNAP_THRESHOLD⟩).line ∧
       (MindMap.getHelperLines d nodes).snapY
          = ((MindMap.yCandList d nodes).foldl MindMap.candStep
              ⟨none, none, MindMap.SNAP_THRESHOLD⟩).snap ∧
       (MindMap.getHelperLines d nodes).vertical
          = ((MindMap.xCandList d nodes).foldl MindMap.candStep
              ⟨none, none, MindMap.SNAP_THRESHOLD⟩).line ∧
       (MindMap.getHelperLines d nodes).snapX
          = ((MindMap.xCandList d nodes).foldl MindMap.candStep
              ⟨none, none, MindMap.SNAP_THRESHOLD⟩).snap) ∧
      ((∀ c ∈ MindMap.yCandList d nodes, MindMap.SNAP_THRESHOLD ≤ c.1) →
        (MindMap.getHelperLines d nodes).horizontal = none ∧
        (MindMap.getHelperLines d nodes).snapY = none) ∧
      ((∀ c ∈ MindMap.xCandList d nodes, MindMap.SNAP_THRESHOLD ≤ c.1) →
        (MindMap.getHelperLines d nodes).vertical = none ∧
        (MindMap.getHelperLines d nodes).snapX = none) ∧
      (∀ l : ℚ, (MindMap.getHelperLines d nodes).horizontal = some l →
        ∃ i : Fin (MindMap.yCandList d nodes).length,
          ((MindMap.yCandList d nodes).get i).1 < MindMap.SNAP_THRESHOLD ∧
          (∀ j : Fin (MindMap.yCandList d nodes).length,
            ((MindMap.yCandList d nodes).get i).1
              ≤ ((MindMap.yCandList d nodes).get j).1) ∧
          (∀ j : Fin (MindMap.yCandList d nodes).length,
            (j : Nat) < (i : Nat) →
            ((MindMap.yCandList d nodes).get i).1
              < ((MindMap.yCandList d nodes).get j).1) ∧
          l = ((MindMap.yCandList d nodes).get i).2.1 ∧
          (MindMap.getHelperLines d nodes).snapY
            = some ((MindMap.yCandList d nodes).get i).2.2) ∧
      (∀ l : ℚ, (MindMap.getHelperLines d nodes).vertical = some l →
        ∃ i : Fin (MindMap.xCandList d nodes).length,
          ((MindMap.xCandList d nodes).get i).1 < MindMap.SNAP_THRESHOLD ∧
          (∀ j : Fin (MindMap.xCandList d nodes).length,
            ((MindMap.xCandList d nodes).get i).1
              ≤ ((MindMap.xCandList d nodes).get j).1) ∧
          (∀ j : Fin (MindMap.xCandList d nodes).length,
            (j : Nat) < (i : Nat) →
            ((MindMap.xCandList d nodes).get i).1
              < ((MindMap.xCandList d nodes).get j).1) ∧
          l = ((MindMap.xCandList d nodes).get i).2.1 ∧
          (MindMap.getHelperLines d nodes).snapX
            = some ((MindMap.xCandList d nodes).get i).2.2)) ∧
    MindMap.getHelperLines simDrag [simA, simB, simDrag]
      = ⟨some 23, some 54, some 4, some 3, none⟩ := by
  constructor
  · intro d nodes
    have hdec := MindMap.getHelperLines_decomp d nodes
    refine ⟨?_, ?_, ?_, ?_, ?_⟩
    · rw [hdec]
      exact ⟨rfl, rfl, rfl, rfl⟩
    · intro h
      rw [hdec]
      rw [MindMap.foldl_candStep_id (MindMap.yCandList d nodes)
        ⟨none, none, MindMap.SNAP_THRESHOLD⟩ h]
      exact ⟨rfl, rfl⟩
    · intro h
      rw [hdec]
      rw [MindMap.foldl_candStep_id (MindMap.xCandList d nodes)
        ⟨none, none, MindMap.SNAP_THRESHOLD⟩ h]
      exact ⟨rfl, rfl⟩
    · intro l hl
      rw [hdec] at hl
      rcases MindMap.foldl_candStep_cases (MindMap.yCandList d nodes)
        ⟨none, none, MindMap.SNAP_THRESHOLD⟩ with
        ⟨hfix, -⟩ | ⟨i, hlt, hmin, hfirst, heq⟩
      · rw [hfix] at hl
        cases hl
      · rw [heq] at hl
        refine ⟨i, hlt, hmin, hfirst, ?_, ?_⟩
        · exact (Option.some.injEq _ _ ▸ hl).symm
        · rw [hdec, heq]
    · intro l hl
      rw [hdec] at hl
      rcases MindMap.foldl_candStep_cases (MindMap.xCandList d nodes)
        ⟨none, none, MindMap.SNAP_THRESHOLD⟩ with
        ⟨hfix, -⟩ | ⟨i, hlt, hmin, hfirst, heq⟩
      · rw [hfix] at hl
        cases hl
      · rw [heq] at hl
        refine ⟨i, hlt, hmin, hfirst, ?_, ?_⟩
        · exact (Option.some.injEq _ _ ▸ hl).symm
        · rw [hdec, heq]
  · norm_num +decide [MindMap.getHelperLines, MindMap.hlStep,
      MindMap.getNodeDimensions, MindMap.getNodeDimensions.fallback,
      MindMap.absq, MindMap.SNAP_THRESHOLD, simA, simB, simDrag]

/-- C4 witness: with the dragged node far away from the only other node,
every candidate distance reaches the threshold and no snap is suggested on
either axis. -/
theorem alignment_engine_spec_witness :
    (∀ c ∈ MindMap.yCandList farDrag [simA, farDrag],
        MindMap.SNAP_THRESHOLD ≤ c.1) ∧
    ((MindMap.getHelperLines farDrag [simA, farDrag]).horizontal = none ∧
     (MindMap.getHelperLines farDrag [simA, farDrag]).snapY = none) :=
  ⟨by
    norm_num +decide [MindMap.yCandList, MindMap.yCands,
      MindMap.getNodeDimensions, MindMap.getNodeDimensions.fallback,
      MindMap.absq, MindMap.SNAP_THRESHOLD, simA, farDrag,
      List.flatMap, List.filter],
   (alignment_engine_spec.1 farDrag [simA, farDrag]).2.1 (by
    norm_num +decide [MindMap.yCandList, MindMap.yCands,
      MindMap.getNodeDimensions, MindMap.getNodeDimensions.fallback,
      MindMap.absq, MindMap.SNAP_THRESHOLD, simA, farDrag,
      List.flatMap, List.filter])⟩

/-- C6 counterexample: on the simultaneity instance the engine reports
snaps on both axes, yet `alignType` is `null` - the output does not name
the matching alignment type. -/
theorem alignType_never_set_counterexample :
    (MindMap.getHelperLines simDrag [simA, simB, simDrag]).horizontal.isSome
        = true ∧
    (MindMap.getHelperLines simDrag [simA, simB, simDrag]).alignType
        = none := by
  constructor <;>
    norm_num +decide [MindMap.getHelperLines, MindMap.hlStep,
      MindMap.getNodeDimensions, MindMap.getNodeDimensions.fallback,
      MindMap.absq, MindMap.SNAP_THRESHOLD, simA, simB, simDrag]

/-- C6 (amended): the `alignType` field of the result is initialised to
`null` and never assigned anywhere in the loop, so every call returns
`alignType = null`, whether or not a snap is suggested. -/
theorem alignType_always_none (d : MindMap.Node) (nodes : List MindMap.Node) :
    (MindMap.getHelperLines d nodes).alignType = none := by
  rw [MindMap.getHelperLines_decomp]


/-- C5 (amended): dragging node B near A - for every tentative position
(x, y) whose vertical offset from A's top is strictly within the 8-unit
threshold and whose horizontal offset is at least the threshold, the
engine reports a horizontal snap whose guide line is Y = 120 (A's
center - for equal-height nodes the center distance equals the top
distance and the center candidate, checked first, wins the tie; the line
is not the top line Y = 100) with snapped position y = 100, and
`customOnNodesChange` commits exactly (x, 100). -/
theorem snap_scenario_spec (x y : ℚ)
    (hy1 : 100 - 8 < y) (hy2 : y < 100 + 8)
    (hx : x ≤ 100 - 8 ∨ 100 + 8 ≤ x) :
    MindMap.getHelperLines ⟨"B", ⟨x, y⟩, "", none, "leaf", none, none⟩
        [nodeA, nodeB]
      = ⟨some 120, none, none, some 100, none⟩ ∧
    MindMap.customOnNodesChange
        [MindMap.NodeChange.position "B" (some ⟨x, y⟩) true] [nodeA, nodeB]
      = [MindMap.NodeChange.position "B" (some ⟨x, 100⟩) true] := by
  have hYc : (if y + 20 < 120 then 120 - (y + 20) else y + 20 - 120)
      < (8 : ℚ) := by
    split_ifs <;> linarith
  have hYt : ¬ ((if y < 100 then 100 - y else y - 100)
      < (if y + 20 < 120 then 120 - (y + 20) else y + 20 - 120)) := by
    split_ifs <;> linarith
  have hYb : ¬ ((if y + 40 < 140 then 140 - (y + 40) else y + 40 - 140)
      < (if y + 20 < 120 then 120 - (y + 20) else y + 20 - 120)) := by
    split_ifs <;> linarith
  have hXc : ¬ ((if x + 50 < 150 then 150 - (x + 50) else x + 50 - 150)
      < (8 : ℚ)) := by
    split_ifs <;> rcases hx with h | h <;> linarith
  have hXl : ¬ ((if x < 100 then 100 - x else x - 100) < (8 : ℚ)) := by
    split_ifs <;> rcases hx with h | h <;> linarith
  have hXr : ¬ ((if x + 100 < 200 then 200 - (x + 100) else x + 100 - 200)
      < (8 : ℚ)) := by
    split_ifs <;> rcases hx with h | h <;> linarith
  have h1 : MindMap.getHelperLines ⟨"B", ⟨x, y⟩, "", none, "leaf", none, none⟩
      [nodeA, nodeB] = ⟨some 120, none, none, some 100, none⟩ := by
    simp only [MindMap.getHelperLines, List.foldl_cons, List.foldl_nil,
      MindMap.hlStep, MindMap.getNodeDimensions,
      MindMap.getNodeDimensions.fallback, MindMap.SNAP_THRESHOLD,
      MindMap.absq, nodeA, nodeB]
    norm_num +decide [hYc, hYt, hYb, hXc, hXl, hXr]
  refine ⟨h1, ?_⟩
  have hab : ("A" == "B") = false := by decide
  have hbb : ("B" == "B") = true := by decide
  have h2 := h1
  simp only [nodeA, nodeB] at h2
  unfold MindMap.customOnNodesChange
  norm_num +decide [MindMap.isDraggingChange, List.find?, nodeA, nodeB, h2,
    hab, hbb]

/-- C5 counterexample: with A at (100, 100) and B dragged to (300, 105) -
strictly inside the threshold band - the reported horizontal snap line is
Y = 120 (the center line of A), not Y = 100 (top-to-top); and at B's
nominal start (100, 108), exactly 8 units from A's top, no horizontal snap
is reported at all because the comparison is strict. -/
theorem snap_scenario_counterexample :
    (MindMap.getHelperLines ⟨"B", ⟨300, 105⟩, "", none, "leaf", none, none⟩
        [nodeA, nodeB]).horizontal = some 120 ∧
    (MindMap.getHelperLines ⟨"B", ⟨300, 105⟩, "", none, "leaf", none, none⟩
        [nodeA, nodeB]).horizontal ≠ some 100 ∧
    (MindMap.getHelperLines ⟨"B", ⟨100, 108⟩, "", none, "leaf", none, none⟩
        [nodeA, nodeB]).horizontal = none := by
  refine ⟨?_, ?_, ?_⟩ <;>
    norm_num +decide [MindMap.getHelperLines, MindMap.hlStep,
      MindMap.getNodeDimensions, MindMap.getNodeDimensions.fallback,
      MindMap.absq, MindMap.SNAP_THRESHOLD, nodeA, nodeB]

/-- C5 witness: at the tentative position (300, 105) the engine snaps to
y = 100 and the committed change is exactly (300, 100). -/
theorem snap_scenario_spec_witness :
    ((100 : ℚ) - 8 < 105 ∧ (105 : ℚ) < 100 + 8 ∧
      ((300 : ℚ) ≤ 100 - 8 ∨ (100 : ℚ) + 8 ≤ 300)) ∧
    (MindMap.getHelperLines ⟨"B", ⟨300, 105⟩, "", none, "leaf", none, none⟩
        [nodeA, nodeB] = ⟨some 120, none, none, some 100, none⟩ ∧
     MindMap.customOnNodesChange
        [MindMap.NodeChange.position "B" (some ⟨300, 105⟩) true]
        [nodeA, nodeB]
      = [MindMap.NodeChange.position "B" (some ⟨300, 100⟩) true]) :=
  ⟨⟨by norm_num, by norm_num, Or.inr (by norm_num)⟩,
   snap_scenario_spec 300 105 (by norm_num) (by norm_num)
     (Or.inr (by norm_num))⟩
